import Mathlib

/-!
# etch.hpp: the C++ wrapper around the Etch C API

A shallow embedding of `src/include/etch.hpp`.

* The C API (`etch.h`) is not part of the sources.  Every `etch_*` function the
  wrapper calls is a field of the record `Native`, over an arbitrary native
  state `σ`; the wrapper is verified for every such native layer.
* Every native call the wrapper makes is appended to a call trace, so that
  statements such as "no native call is made" or "the next native call is
  `etch_get_error`" can be stated.
* A C++ exception is a value of `Except Exception _`; the world (native state and
  trace) reached at the throw is kept.
* `etch.hpp` has one exception class, `etch::Exception`; the failure kinds of the
  specification (TypeMismatch, CompilationFailure, ...) are told apart by the
  method that throws and by the message.
-/

namespace etch

/-! ## Data model -/

/-- A native resource identifier (the address an opaque pointer holds). -/
abbrev Handle := Nat

/-- The C type `EtchValue`, an opaque pointer: `none` is `nullptr`. -/
abbrev EtchValue := Option Handle

/-- The C type `EtchContext`, an opaque pointer: `none` is `nullptr`. -/
abbrev EtchContext := Option Handle

/-- The C type `int64_t`.  The wrapper only passes these along; no arithmetic
is done on them, so the mathematical integers stand for them. -/
abbrev int64_t := Int

/-- The C type `double`, as its bit pattern.  The wrapper only passes these
along; no floating-point operation is performed. -/
abbrev double := Nat

/-- The C type `char`: one byte. -/
abbrev c_char := Fin 256

/-- The C type `int` as the wrapper sees native results. -/
abbrev c_int := Int

/-- The type `EtchHostFunction`, a C function pointer, as an address. -/
abbrev EtchHostFunction := Nat

/-- A `void*`: `none` is `nullptr`. -/
abbrev VoidPtr := Option Nat

/-- The NUL character that terminates a C string. -/
def NUL : Char := Char.ofNat 0

/-- The characters `std::string::c_str()` shows to a C function: a C string
ends at its first NUL, so the content of `s` from an embedded NUL on is not
seen.  A `const char*` is modelled by the text it points at. -/
def c_str (s : String) : String := String.mk (s.data.takeWhile (fun c => c != NUL))

/-- The conversion `static_cast<int>(n)` of a `size_t` to a 32-bit `int`:
reduction modulo `2^32` into the range `[-2^31, 2^31)`. -/
def static_cast_int (n : Nat) : c_int := ((n + 2 ^ 31) % 2 ^ 32 : Nat) - (2 ^ 31 : Int)

/-- The class `etch::Exception`: a `std::runtime_error` with a message. -/
structure Exception where
  what : String
deriving DecidableEq, Repr

/-- Equality of outcomes is decidable when it is so for results and errors. -/
instance instDecidableEqExcept {ε α : Type} [DecidableEq ε] [DecidableEq α] :
    DecidableEq (Except ε α)
  | Except.ok a, Except.ok b =>
    if h : a = b then isTrue (by rw [h]) else isFalse (fun h1 => h (Except.ok.inj h1))
  | Except.error a, Except.error b =>
    if h : a = b then isTrue (by rw [h]) else isFalse (fun h1 => h (Except.error.inj h1))
  | Except.ok _, Except.error _ => isFalse (fun h => Except.noConfusion h)
  | Except.error _, Except.ok _ => isFalse (fun h => Except.noConfusion h)

/-- One call of a C API function, with the arguments the wrapper passed. -/
inductive Call where
  | etch_value_new_nil
  | etch_value_new_int (v : int64_t)
  | etch_value_new_float (v : double)
  | etch_value_new_bool (v : c_int)
  | etch_value_new_string (v : String)
  | etch_value_new_char (v : c_char)
  | etch_value_free (v : EtchValue)
  | etch_value_is_int (v : EtchValue)
  | etch_value_is_float (v : EtchValue)
  | etch_value_is_bool (v : EtchValue)
  | etch_value_is_string (v : EtchValue)
  | etch_value_is_nil (v : EtchValue)
  | etch_value_get_type (v : EtchValue)
  | etch_value_to_int (v : EtchValue)
  | etch_value_to_float (v : EtchValue)
  | etch_value_to_bool (v : EtchValue)
  | etch_value_to_string (v : EtchValue)
  | etch_value_to_char (v : EtchValue)
  | etch_compile_string (ctx : EtchContext) (source filename : String)
  | etch_compile_file (ctx : EtchContext) (path : String)
  | etch_execute (ctx : EtchContext)
  | etch_get_error (ctx : EtchContext)
  | etch_call_function (ctx : EtchContext) (name : String)
      (args : Option (List EtchValue)) (count : c_int)
  | etch_set_global (ctx : EtchContext) (name : String) (v : EtchValue)
  | etch_get_global (ctx : EtchContext) (name : String)
  | etch_register_function (ctx : EtchContext) (name : String)
      (callback : EtchHostFunction) (userData : VoidPtr)
deriving DecidableEq, Repr

/-- The C API of `etch.h`, which is outside the sources: each function the
wrapper calls, over a native state `σ`.  Constructors, free, compile, execute,
call and the global table may change the native state; predicates, the tag
query, conversions and `etch_get_error` read it.  A conversion with an
out-parameter returns the flag and the value written.  `ETCH_TYPE_NIL` is the
enumerator of `EtchValueType` the wrapper names. -/
structure Native (σ : Type) where
  ETCH_TYPE_NIL : c_int
  etch_value_new_nil : σ → EtchValue × σ
  etch_value_new_int : int64_t → σ → EtchValue × σ
  etch_value_new_float : double → σ → EtchValue × σ
  etch_value_new_bool : c_int → σ → EtchValue × σ
  etch_value_new_string : String → σ → EtchValue × σ
  etch_value_new_char : c_char → σ → EtchValue × σ
  etch_value_free : EtchValue → σ → σ
  etch_value_is_int : EtchValue → σ → c_int
  etch_value_is_float : EtchValue → σ → c_int
  etch_value_is_bool : EtchValue → σ → c_int
  etch_value_is_string : EtchValue → σ → c_int
  etch_value_is_nil : EtchValue → σ → c_int
  etch_value_get_type : EtchValue → σ → c_int
  etch_value_to_int : EtchValue → σ → c_int × int64_t
  etch_value_to_float : EtchValue → σ → c_int × double
  etch_value_to_bool : EtchValue → σ → c_int × c_int
  etch_value_to_string : EtchValue → σ → Option String
  etch_value_to_char : EtchValue → σ → c_int × c_char
  etch_compile_string : EtchContext → String → String → σ → c_int × σ
  etch_compile_file : EtchContext → String → σ → c_int × σ
  etch_execute : EtchContext → σ → c_int × σ
  etch_get_error : EtchContext → σ → Option String
  etch_call_function : EtchContext → String → Option (List EtchValue) → c_int → σ → EtchValue × σ
  etch_set_global : EtchContext → String → EtchValue → σ → σ
  etch_get_global : EtchContext → String → σ → EtchValue × σ
  etch_register_function : EtchContext → String → EtchHostFunction → VoidPtr → σ → c_int × σ

/-- The native state together with the trace of native calls made so far. -/
@[ext]
structure World (σ : Type) where
  native : σ
  trace : List Call
deriving DecidableEq

/-- Record the native call `c`, which left the native state `s`. -/
def World.log {σ : Type} (w : World σ) (c : Call) (s : σ) : World σ :=
  ⟨s, w.trace ++ [c]⟩

/-- The class `etch::Value`: its one data member. -/
structure Value where
  value_ : EtchValue
deriving DecidableEq, Repr

/-- The class `etch::Context`: its one data member. -/
structure Context where
  ctx_ : EtchContext
deriving DecidableEq, Repr

/-! ## class Value -/

section ValueMethods
variable {σ : Type}

/-- The default constructor `Value() : value_(etch_value_new_nil()) {}`. -/
def Value.ctor_nil (N : Native σ) (w : World σ) : Value × World σ :=
  let r := N.etch_value_new_nil w.native
  (⟨r.1⟩, w.log Call.etch_value_new_nil r.2)

/-- The constructor `Value(int64_t v)`. -/
def Value.ctor_int (N : Native σ) (v : int64_t) (w : World σ) :
    Except Exception Value × World σ :=
  let r := N.etch_value_new_int v w.native
  let w1 := w.log (Call.etch_value_new_int v) r.2
  match r.1 with
  | none => (Except.error ⟨"Failed to create int value"⟩, w1)
  | some h => (Except.ok ⟨some h⟩, w1)

/-- The constructor `Value(double v)`. -/
def Value.ctor_float (N : Native σ) (v : double) (w : World σ) :
    Except Exception Value × World σ :=
  let r := N.etch_value_new_float v w.native
  let w1 := w.log (Call.etch_value_new_float v) r.2
  match r.1 with
  | none => (Except.error ⟨"Failed to create float value"⟩, w1)
  | some h => (Except.ok ⟨some h⟩, w1)

/-- The constructor `Value(bool v)`, which passes `v ? 1 : 0`. -/
def Value.ctor_bool (N : Native σ) (v : Bool) (w : World σ) :
    Except Exception Value × World σ :=
  let r := N.etch_value_new_bool (if v then 1 else 0) w.native
  let w1 := w.log (Call.etch_value_new_bool (if v then 1 else 0)) r.2
  match r.1 with
  | none => (Except.error ⟨"Failed to create bool value"⟩, w1)
  | some h => (Except.ok ⟨some h⟩, w1)

/-- The constructor `Value(const std::string& v)`, which passes `v.c_str()`. -/
def Value.ctor_string (N : Native σ) (v : String) (w : World σ) :
    Except Exception Value × World σ :=
  let r := N.etch_value_new_string (c_str v) w.native
  let w1 := w.log (Call.etch_value_new_string (c_str v)) r.2
  match r.1 with
  | none => (Except.error ⟨"Failed to create string value"⟩, w1)
  | some h => (Except.ok ⟨some h⟩, w1)

/-- The constructor `Value(const char* v)`; `v` is the text in memory at the
pointer, which the native layer reads as a C string. -/
def Value.ctor_cstr (N : Native σ) (v : String) (w : World σ) :
    Except Exception Value × World σ :=
  let r := N.etch_value_new_string (c_str v) w.native
  let w1 := w.log (Call.etch_value_new_string (c_str v)) r.2
  match r.1 with
  | none => (Except.error ⟨"Failed to create string value"⟩, w1)
  | some h => (Except.ok ⟨some h⟩, w1)

/-- The constructor `Value(char v)`. -/
def Value.ctor_char (N : Native σ) (v : c_char) (w : World σ) :
    Except Exception Value × World σ :=
  let r := N.etch_value_new_char v w.native
  let w1 := w.log (Call.etch_value_new_char v) r.2
  match r.1 with
  | none => (Except.error ⟨"Failed to create char value"⟩, w1)
  | some h => (Except.ok ⟨some h⟩, w1)

/-- The constructor `Value(EtchValue v) : value_(v) {}`: takes ownership of `v`. -/
def Value.ctor_handle (v : EtchValue) : Value := ⟨v⟩

/-- The destructor body: `if (value_) etch_value_free(value_);`. -/
def Value.dtor (N : Native σ) (self : Value) (w : World σ) : World σ :=
  match self.value_ with
  | none => w
  | some h => w.log (Call.etch_value_free (some h)) (N.etch_value_free (some h) w.native)

/-- The method `isInt`: `value_ && etch_value_is_int(value_)`. -/
def Value.isInt (N : Native σ) (self : Value) (w : World σ) : Bool × World σ :=
  match self.value_ with
  | none => (false, w)
  | some h => (N.etch_value_is_int (some h) w.native != 0,
      w.log (Call.etch_value_is_int (some h)) w.native)

/-- The method `isFloat`: `value_ && etch_value_is_float(value_)`. -/
def Value.isFloat (N : Native σ) (self : Value) (w : World σ) : Bool × World σ :=
  match self.value_ with
  | none => (false, w)
  | some h => (N.etch_value_is_float (some h) w.native != 0,
      w.log (Call.etch_value_is_float (some h)) w.native)

/-- The method `isBool`: `value_ && etch_value_is_bool(value_)`. -/
def Value.isBool (N : Native σ) (self : Value) (w : World σ) : Bool × World σ :=
  match self.value_ with
  | none => (false, w)
  | some h => (N.etch_value_is_bool (some h) w.native != 0,
      w.log (Call.etch_value_is_bool (some h)) w.native)

/-- The method `isString`: `value_ && etch_value_is_string(value_)`. -/
def Value.isString (N : Native σ) (self : Value) (w : World σ) : Bool × World σ :=
  match self.value_ with
  | none => (false, w)
  | some h => (N.etch_value_is_string (some h) w.native != 0,
      w.log (Call.etch_value_is_string (some h)) w.native)

/-- The method `isNil`: `!value_ || etch_value_is_nil(value_)`. -/
def Value.isNil (N : Native σ) (self : Value) (w : World σ) : Bool × World σ :=
  match self.value_ with
  | none => (true, w)
  | some h => (N.etch_value_is_nil (some h) w.native != 0,
      w.log (Call.etch_value_is_nil (some h)) w.native)

/-- The method `getType`: `ETCH_TYPE_NIL` for a null handle, else the native
tag cast to `EtchValueType` (kept as the integer). -/
def Value.getType (N : Native σ) (self : Value) (w : World σ) : c_int × World σ :=
  match self.value_ with
  | none => (N.ETCH_TYPE_NIL, w)
  | some h => (N.etch_value_get_type (some h) w.native,
      w.log (Call.etch_value_get_type (some h)) w.native)

/-- The method `toInt`. -/
def Value.toInt (N : Native σ) (self : Value) (w : World σ) :
    Except Exception int64_t × World σ :=
  let r := N.etch_value_to_int self.value_ w.native
  let w1 := w.log (Call.etch_value_to_int self.value_) w.native
  if r.1 ≠ 0 then (Except.error ⟨"Value is not an integer"⟩, w1) else (Except.ok r.2, w1)

/-- The method `toFloat`. -/
def Value.toFloat (N : Native σ) (self : Value) (w : World σ) :
    Except Exception double × World σ :=
  let r := N.etch_value_to_float self.value_ w.native
  let w1 := w.log (Call.etch_value_to_float self.value_) w.native
  if r.1 ≠ 0 then (Except.error ⟨"Value is not a float"⟩, w1) else (Except.ok r.2, w1)

/-- The method `toBool`, which returns `result != 0`. -/
def Value.toBool (N : Native σ) (self : Value) (w : World σ) :
    Except Exception Bool × World σ :=
  let r := N.etch_value_to_bool self.value_ w.native
  let w1 := w.log (Call.etch_value_to_bool self.value_) w.native
  if r.1 ≠ 0 then (Except.error ⟨"Value is not a boolean"⟩, w1) else (Except.ok (r.2 != 0), w1)

/-- The method `toString`: a null `const char*` throws, else `std::string(str)`. -/
def Value.toString (N : Native σ) (self : Value) (w : World σ) :
    Except Exception String × World σ :=
  let w1 := w.log (Call.etch_value_to_string self.value_) w.native
  match N.etch_value_to_string self.value_ w.native with
  | none => (Except.error ⟨"Value is not a string"⟩, w1)
  | some str => (Except.ok str, w1)

/-- The method `toChar`. -/
def Value.toChar (N : Native σ) (self : Value) (w : World σ) :
    Except Exception c_char × World σ :=
  let r := N.etch_value_to_char self.value_ w.native
  let w1 := w.log (Call.etch_value_to_char self.value_) w.native
  if r.1 ≠ 0 then (Except.error ⟨"Value is not a character"⟩, w1) else (Except.ok r.2, w1)

/-- The method `handle`: the raw handle, borrowed. -/
def Value.handle (self : Value) : EtchValue := self.value_

/-- The method `release`: returns the handle and the object state after the
call, whose handle is null. -/
def Value.release (self : Value) : EtchValue × Value := (self.value_, ⟨none⟩)

end ValueMethods

/-! ## class Context -/

section ContextMethods
variable {σ : Type}

/-- The method `compileString(source, filename)`. -/
def Context.compileString (N : Native σ) (self : Context) (source filename : String)
    (w : World σ) : Except Exception Unit × World σ :=
  let r := N.etch_compile_string self.ctx_ (c_str source) (c_str filename) w.native
  let w1 := w.log (Call.etch_compile_string self.ctx_ (c_str source) (c_str filename)) r.2
  if r.1 ≠ 0 then
    let err := N.etch_get_error self.ctx_ w1.native
    let w2 := w1.log (Call.etch_get_error self.ctx_) w1.native
    match err with
    | some msg => (Except.error ⟨msg⟩, w2)
    | none => (Except.error ⟨"Compilation failed"⟩, w2)
  else (Except.ok (), w1)

/-- The method `compileFile(path)`. -/
def Context.compileFile (N : Native σ) (self : Context) (path : String)
    (w : World σ) : Except Exception Unit × World σ :=
  let r := N.etch_compile_file self.ctx_ (c_str path) w.native
  let w1 := w.log (Call.etch_compile_file self.ctx_ (c_str path)) r.2
  if r.1 ≠ 0 then
    let err := N.etch_get_error self.ctx_ w1.native
    let w2 := w1.log (Call.etch_get_error self.ctx_) w1.native
    match err with
    | some msg => (Except.error ⟨msg⟩, w2)
    | none => (Except.error ⟨"Failed to compile file"⟩, w2)
  else (Except.ok (), w1)

/-- The method `execute()`. -/
def Context.execute (N : Native σ) (self : Context) (w : World σ) :
    Except Exception c_int × World σ :=
  let r := N.etch_execute self.ctx_ w.native
  let w1 := w.log (Call.etch_execute self.ctx_) r.2
  if r.1 ≠ 0 then
    let err := N.etch_get_error self.ctx_ w1.native
    let w2 := w1.log (Call.etch_get_error self.ctx_) w1.native
    match err with
    | some msg => (Except.error ⟨msg⟩, w2)
    | none => (Except.ok r.1, w2)
  else (Except.ok r.1, w1)

/-- The vector `rawArgs` that `callFunction` builds: the handle of each
argument, in order. -/
def rawArgsOf (args : List Value) : List EtchValue := args.map Value.handle

/-- The pointer argument `rawArgs.empty() ? nullptr : rawArgs.data()`. -/
def rawArgsPtr (rawArgs : List EtchValue) : Option (List EtchValue) :=
  if rawArgs.isEmpty then none else some rawArgs

/-- The method `callFunction(name, args)`. -/
def Context.callFunction (N : Native σ) (self : Context) (name : String) (args : List Value)
    (w : World σ) : Except Exception Value × World σ :=
  let rawArgs := rawArgsOf args
  let count := static_cast_int rawArgs.length
  let r := N.etch_call_function self.ctx_ (c_str name) (rawArgsPtr rawArgs) count w.native
  let w1 := w.log (Call.etch_call_function self.ctx_ (c_str name) (rawArgsPtr rawArgs) count) r.2
  match r.1 with
  | none =>
    let err := N.etch_get_error self.ctx_ w1.native
    let w2 := w1.log (Call.etch_get_error self.ctx_) w1.native
    match err with
    | some msg => (Except.error ⟨msg⟩, w2)
    | none => (Except.error ⟨"Function call failed"⟩, w2)
  | some h => (Except.ok (Value.ctor_handle (some h)), w1)

/-- The method `getGlobal(name)`. -/
def Context.getGlobal (N : Native σ) (self : Context) (name : String)
    (w : World σ) : Except Exception Value × World σ :=
  let r := N.etch_get_global self.ctx_ (c_str name) w.native
  let w1 := w.log (Call.etch_get_global self.ctx_ (c_str name)) r.2
  match r.1 with
  | none => (Except.error ⟨"Global variable not found: " ++ name⟩, w1)
  | some h => (Except.ok (Value.ctor_handle (some h)), w1)

/-- The method `registerFunction(name, callback, userData)`. -/
def Context.registerFunction (N : Native σ) (self : Context) (name : String)
    (callback : EtchHostFunction) (userData : VoidPtr) (w : World σ) :
    Except Exception Unit × World σ :=
  let r := N.etch_register_function self.ctx_ (c_str name) callback userData w.native
  let w1 := w.log (Call.etch_register_function self.ctx_ (c_str name) callback userData) r.2
  if r.1 ≠ 0 then (Except.error ⟨"Failed to register function: " ++ name⟩, w1)
  else (Except.ok (), w1)

end ContextMethods

/-! ## Value objects in memory

Move construction, move assignment and destruction depend on which object is
which (`this != &other`) and end or begin object lifetimes.  Objects live in a
heap indexed by address. -/

/-- The address of a `Value` object. -/
abbrev Addr := Nat

/-- The `Value` objects of a program: `heap[a] = some v` is a live object at
address `a` in state `v`; `none` is an object whose lifetime has ended. -/
structure Machine (σ : Type) where
  world : World σ
  heap : List (Option Value)

/-- The state of the live object at address `a`, if there is one. -/
def Machine.obj {σ : Type} (m : Machine σ) (a : Addr) : Option Value := (m.heap[a]?).join

/-- No object yet, no native call yet. -/
def Machine.init {σ : Type} (s : σ) : Machine σ := ⟨⟨s, []⟩, []⟩

section Objects
variable {σ : Type}

/-- A newly constructed object is placed at the next address. -/
def Machine.construct (m : Machine σ) (w : World σ) (v : Value) : Machine σ :=
  ⟨w, m.heap ++ [some v]⟩

/-- A constructor that may throw: when it throws no object comes to be. -/
def Machine.constructOrThrow (m : Machine σ) (r : Except Exception Value × World σ) :
    Machine σ :=
  match r.1 with
  | Except.ok v => m.construct r.2 v
  | Except.error _ => ⟨r.2, m.heap⟩

/-- The move constructor `Value(Value&& other)`: the new object takes
`other.value_` and `other.value_` becomes null. -/
def Machine.ctor_move (m : Machine σ) (other : Addr) : Option (Machine σ) :=
  match m.obj other with
  | none => none
  | some o => some ⟨m.world, (m.heap.set other (some ⟨none⟩)) ++ [some ⟨o.value_⟩]⟩

/-- The move assignment `operator=(Value&& other)` on the object at `this`. -/
def Machine.move_assign (N : Native σ) (m : Machine σ) (this other : Addr) :
    Option (Machine σ) :=
  match m.obj this, m.obj other with
  | some t, some o =>
    if this ≠ other then
      let w1 := match t.value_ with
        | none => m.world
        | some h => m.world.log (Call.etch_value_free (some h))
            (N.etch_value_free (some h) m.world.native)
      some ⟨w1, (m.heap.set this (some ⟨o.value_⟩)).set other (some ⟨none⟩)⟩
    else some m
  | _, _ => none

/-- The method `release()` on the object at `this`: the handle returned and
the machine afterwards. -/
def Machine.release (m : Machine σ) (this : Addr) : Option (EtchValue × Machine σ) :=
  match m.obj this with
  | none => none
  | some t => some ((Value.release t).1, ⟨m.world, m.heap.set this (some (Value.release t).2)⟩)

/-- The end of the lifetime of the object at `this`: its destructor runs. -/
def Machine.destroy (N : Native σ) (m : Machine σ) (this : Addr) : Option (Machine σ) :=
  match m.obj this with
  | none => none
  | some t => some ⟨Value.dtor N t m.world, m.heap.set this none⟩

/-- One public operation on `Value` objects. -/
inductive Op where
  | newNil
  | newInt (v : int64_t)
  | newFloat (v : double)
  | newBool (v : Bool)
  | newString (v : String)
  | newCStr (v : String)
  | newChar (v : c_char)
  | adopt (h : EtchValue)
  | moveConstruct (other : Addr)
  | moveAssign (this other : Addr)
  | release (this : Addr)
  | handle (this : Addr)
  | destroy (this : Addr)
deriving DecidableEq, Repr

/-- Run one operation; `none` when it names an address with no live object,
which no C++ program can do. -/
def Machine.step (N : Native σ) (m : Machine σ) : Op → Option (Machine σ)
  | Op.newNil => some (m.construct (Value.ctor_nil N m.world).2 (Value.ctor_nil N m.world).1)
  | Op.newInt v => some (m.constructOrThrow (Value.ctor_int N v m.world))
  | Op.newFloat v => some (m.constructOrThrow (Value.ctor_float N v m.world))
  | Op.newBool v => some (m.constructOrThrow (Value.ctor_bool N v m.world))
  | Op.newString v => some (m.constructOrThrow (Value.ctor_string N v m.world))
  | Op.newCStr v => some (m.constructOrThrow (Value.ctor_cstr N v m.world))
  | Op.newChar v => some (m.constructOrThrow (Value.ctor_char N v m.world))
  | Op.adopt h => some (m.construct m.world (Value.ctor_handle h))
  | Op.moveConstruct other => m.ctor_move other
  | Op.moveAssign this other => m.move_assign N this other
  | Op.release this => (m.release this).map Prod.snd
  | Op.handle this => (m.obj this).map (fun _ => m)
  | Op.destroy this => m.destroy N this

/-- Run a sequence of operations. -/
def Machine.run (N : Native σ) : Machine σ → List Op → Option (Machine σ)
  | m, [] => some m
  | m, op :: ops =>
    match m.step N op with
    | none => none
    | some m1 => Machine.run N m1 ops

/-- How many live `Value` objects hold the handle `h`. -/
def Machine.owners (m : Machine σ) (h : Handle) : Nat :=
  m.heap.count (some ⟨some h⟩)

/-- How many times `etch_value_free` was called on the handle `h`. -/
def World.frees (w : World σ) (h : Handle) : Nat :=
  w.trace.count (Call.etch_value_free (some h))

/-- Every handle is held by at most one live `Value` or was freed at most
once, and never both. -/
def Machine.Inv (m : Machine σ) : Prop := ∀ h, m.owners h + m.world.frees h ≤ 1

/-- The handle is neither held by a live `Value` nor already freed. -/
def Machine.unowned (m : Machine σ) : EtchValue → Bool
  | none => true
  | some h => m.owners h == 0 && m.world.frees h == 0

/-- The handle that enters the wrapper at this operation, from a native
constructor or as the argument of `Value(EtchValue)`. -/
def Machine.incoming (N : Native σ) (m : Machine σ) : Op → EtchValue
  | Op.newNil => (N.etch_value_new_nil m.world.native).1
  | Op.newInt v => (N.etch_value_new_int v m.world.native).1
  | Op.newFloat v => (N.etch_value_new_float v m.world.native).1
  | Op.newBool v => (N.etch_value_new_bool (if v then 1 else 0) m.world.native).1
  | Op.newString v => (N.etch_value_new_string (c_str v) m.world.native).1
  | Op.newCStr v => (N.etch_value_new_string (c_str v) m.world.native).1
  | Op.newChar v => (N.etch_value_new_char v m.world.native).1
  | Op.adopt h => h
  | _ => none

/-- The ownership discipline on a sequence of operations: each handle that a
native constructor returns is new, and each handle given to
`Value(EtchValue)` is held by no live `Value` and has not been freed. -/
def Machine.disciplined (N : Native σ) : Machine σ → List Op → Bool
  | _, [] => true
  | m, op :: ops =>
    m.unowned (m.incoming N op) &&
      match m.step N op with
      | none => true
      | some m1 => Machine.disciplined N m1 ops

end Objects

/-! ## Programs the statements speak of -/

section Programs
variable {σ : Type}

/-- Construct a `Value` from an `int64_t` and at once call `toInt` on it. -/
def roundTripInt (N : Native σ) (v : int64_t) (w : World σ) : Except Exception int64_t :=
  match Value.ctor_int N v w with
  | (Except.ok x, w1) => (Value.toInt N x w1).1
  | (Except.error e, _) => Except.error e

/-- Construct a `Value` from a `double` and at once call `toFloat` on it. -/
def roundTripFloat (N : Native σ) (v : double) (w : World σ) : Except Exception double :=
  match Value.ctor_float N v w with
  | (Except.ok x, w1) => (Value.toFloat N x w1).1
  | (Except.error e, _) => Except.error e

/-- Construct a `Value` from a `bool` and at once call `toBool` on it. -/
def roundTripBool (N : Native σ) (v : Bool) (w : World σ) : Except Exception Bool :=
  match Value.ctor_bool N v w with
  | (Except.ok x, w1) => (Value.toBool N x w1).1
  | (Except.error e, _) => Except.error e

/-- Construct a `Value` from a `char` and at once call `toChar` on it. -/
def roundTripChar (N : Native σ) (v : c_char) (w : World σ) : Except Exception c_char :=
  match Value.ctor_char N v w with
  | (Except.ok x, w1) => (Value.toChar N x w1).1
  | (Except.error e, _) => Except.error e

/-- Construct a `Value` from a `std::string` and at once call `toString` on it. -/
def roundTripString (N : Native σ) (v : String) (w : World σ) : Except Exception String :=
  match Value.ctor_string N v w with
  | (Except.ok x, w1) => (Value.toString N x w1).1
  | (Except.error e, _) => Except.error e

/-- The native layer, in state `s`, allocates and gives back on conversion
what a constructor was given (for a string, the C string it was given): the
assumption of the round trip. -/
structure Native.StoresAt (N : Native σ) (s : σ) : Prop where
  int : ∀ v, ∃ h, (N.etch_value_new_int v s).1 = some h ∧
    N.etch_value_to_int (some h) (N.etch_value_new_int v s).2 = (0, v)
  float : ∀ v, ∃ h, (N.etch_value_new_float v s).1 = some h ∧
    N.etch_value_to_float (some h) (N.etch_value_new_float v s).2 = (0, v)
  bool : ∀ v, ∃ h, (N.etch_value_new_bool v s).1 = some h ∧
    N.etch_value_to_bool (some h) (N.etch_value_new_bool v s).2 = (0, v)
  char : ∀ v, ∃ h, (N.etch_value_new_char v s).1 = some h ∧
    N.etch_value_to_char (some h) (N.etch_value_new_char v s).2 = (0, v)
  string : ∀ v, ∃ h, (N.etch_value_new_string (c_str v) s).1 = some h ∧
    N.etch_value_to_string (some h) (N.etch_value_new_string (c_str v) s).2 = some (c_str v)

/-- The object at `v` holds no handle and answers as Nil: every query is
answered with no native call, and its destruction frees nothing. -/
def Machine.answersNil (N : Native σ) (m : Machine σ) (v : Addr) : Prop :=
  ∃ e : Value, m.obj v = some e ∧ e.handle = none ∧
    Value.isNil N e m.world = (true, m.world) ∧
    Value.isInt N e m.world = (false, m.world) ∧
    Value.isFloat N e m.world = (false, m.world) ∧
    Value.isBool N e m.world = (false, m.world) ∧
    Value.isString N e m.world = (false, m.world) ∧
    Value.getType N e m.world = (N.ETCH_TYPE_NIL, m.world) ∧
    (m.destroy N v).map Machine.world = some m.world

end Programs

/-! ## A reference native engine -/

/-- Modelled from the spec: a runtime value of the native engine, which is
outside the sources, one of Nil, Int64, Float64, Bool, String, Char. -/
inductive Prim where
  | nil
  | int (v : int64_t)
  | float (v : double)
  | bool (v : c_int)
  | str (v : String)
  | chr (v : c_char)
deriving DecidableEq, Repr

/-- Modelled from the spec: the state of the native engine, which is outside
the sources.  Value cells by handle (`none` once freed), the global table, the
last-error slot, the registered host functions; the outcome of compile,
execute and call is fixed by three fields, as no script is interpreted. -/
structure RefState where
  cells : List (Option Prim)
  globals : List (String × Prim)
  lastError : Option String
  compileStatus : c_int
  executeStatus : c_int
  callResult : Option Prim
  registered : List String
deriving DecidableEq, Repr

/-- Modelled from the spec: value construct returns a new owned handle. -/
def RefState.alloc (p : Prim) (s : RefState) : EtchValue × RefState :=
  (some s.cells.length, { s with cells := s.cells ++ [some p] })

/-- Modelled from the spec: the content a handle stands for. -/
def RefState.cell (v : EtchValue) (s : RefState) : Option Prim :=
  match v with
  | none => none
  | some h => (s.cells.get? h).join

/-- Modelled from the spec: the native protocol of section 6, whose
implementation is outside the sources.  Conversions return flag 0 and the
stored content when the tag matches and flag 1 otherwise; the global table
stores a copy of the content of the borrowed handle (a write with a null
handle, which stands for no value, stores nothing) and a read returns a new
owned handle, or none if absent; registration rejects a name already
registered. -/
def refNative : Native RefState where
  ETCH_TYPE_NIL := 0
  etch_value_new_nil := fun s => s.alloc Prim.nil
  etch_value_new_int := fun v s => s.alloc (Prim.int v)
  etch_value_new_float := fun v s => s.alloc (Prim.float v)
  etch_value_new_bool := fun v s => s.alloc (Prim.bool v)
  etch_value_new_string := fun v s => s.alloc (Prim.str v)
  etch_value_new_char := fun v s => s.alloc (Prim.chr v)
  etch_value_free := fun v s =>
    match v with
    | none => s
    | some h => { s with cells := s.cells.set h none }
  etch_value_is_int := fun v s => match s.cell v with | some (Prim.int _) => 1 | _ => 0
  etch_value_is_float := fun v s => match s.cell v with | some (Prim.float _) => 1 | _ => 0
  etch_value_is_bool := fun v s => match s.cell v with | some (Prim.bool _) => 1 | _ => 0
  etch_value_is_string := fun v s => match s.cell v with | some (Prim.str _) => 1 | _ => 0
  etch_value_is_nil := fun v s => match s.cell v with | some Prim.nil => 1 | _ => 0
  etch_value_get_type := fun v s =>
    match s.cell v with
    | some (Prim.int _) => 1
    | some (Prim.float _) => 2
    | some (Prim.bool _) => 3
    | some (Prim.str _) => 4
    | some (Prim.chr _) => 5
    | _ => 0
  etch_value_to_int := fun v s => match s.cell v with | some (Prim.int x) => (0, x) | _ => (1, 0)
  etch_value_to_float := fun v s =>
    match s.cell v with | some (Prim.float x) => (0, x) | _ => (1, 0)
  etch_value_to_bool := fun v s => match s.cell v with | some (Prim.bool x) => (0, x) | _ => (1, 0)
  etch_value_to_string := fun v s => match s.cell v with | some (Prim.str x) => some x | _ => none
  etch_value_to_char := fun v s => match s.cell v with | some (Prim.chr x) => (0, x) | _ => (1, 0)
  etch_compile_string := fun _ _ _ s => (s.compileStatus, s)
  etch_compile_file := fun _ _ s => (s.compileStatus, s)
  etch_execute := fun _ s => (s.executeStatus, s)
  etch_get_error := fun _ s => s.lastError
  etch_call_function := fun _ _ _ _ s =>
    match s.callResult with
    | none => (none, s)
    | some p => s.alloc p
  etch_set_global := fun _ name v s =>
    match s.cell v with
    | none => s
    | some p => { s with globals := (name, p) :: s.globals }
  etch_get_global := fun _ name s =>
    match s.globals.lookup name with
    | none => (none, s)
    | some p => s.alloc p
  etch_register_function := fun _ name _ _ s =>
    if name ∈ s.registered then (1, s) else (0, { s with registered := name :: s.registered })

/-- A fresh engine: nothing allocated, nothing set, no error, everything
succeeds. -/
def refState : RefState :=
  { cells := [], globals := [], lastError := none, compileStatus := 0, executeStatus := 0,
    callResult := none, registered := [] }

/-- A native state with an empty call trace. -/
def RefState.toWorld (s : RefState) : World RefState := ⟨s, []⟩

/-- The fresh engine with an empty call trace. -/
def refWorld : World RefState := ⟨refState, []⟩

/-- An engine whose compile and execute report status 1 and whose last-error
slot holds `err`. -/
def refFailing (err : Option String) : World RefState :=
  ⟨{ refState with lastError := err, compileStatus := 1, executeStatus := 1 }, []⟩

/-- A context wrapper around the engine handle 0. -/
def refCtx : Context := ⟨some 0⟩

/-- An engine with one int cell, handle 0, holding 7. -/
def refWithInt : World RefState := (refNative.etch_value_new_int 7 refState).2.toWorld

/-- An engine whose last-error slot holds "boom" and in which the host
function `f` is registered. -/
def refRegistered : World RefState :=
  ⟨{ refState with lastError := some "boom", registered := ["f"] }, []⟩

/-- A vector of `2^31` Values, the i-th holding the handle `i`. -/
def bigArgs : List Value := (List.range 2147483648).map (fun i => ⟨some i⟩)

/-- An engine with the int cell 0 holding 7 and a call of `f` scripted to
return the int 42. -/
def refCallable : World RefState :=
  ⟨{ (refNative.etch_value_new_int 7 refState).2 with callResult := some (Prim.int 42) }, []⟩

/-- Two live Values over the engine `refWithInt`: the object at address 0
owns the handle 0, the object at address 1 is empty. -/
def refMachine : Machine RefState := ⟨refWithInt, [some ⟨some 0⟩, some ⟨none⟩]⟩

/-- A program that takes the borrowed handle of one Value into a second
Value and destroys both. -/
def aliasingOps : List Op :=
  [Op.newInt 1, Op.handle 0, Op.adopt (some 0), Op.destroy 0, Op.destroy 1]

/-- A program that constructs, moves, releases, re-adopts the released
handle and destroys every object. -/
def movingOps : List Op :=
  [Op.newInt 1, Op.newNil, Op.moveConstruct 0, Op.moveAssign 1 2, Op.release 1,
    Op.adopt (some 0), Op.destroy 0, Op.destroy 1, Op.destroy 2, Op.destroy 3]

/-- The `std::string` of three characters: `a`, NUL, `b`. -/
def nulString : String := String.mk [Char.ofNat 97, NUL, Char.ofNat 98]

end etch

/-! ## Theorems -/

namespace etch

section Lemmas
variable {σ : Type}

/-- A `std::string` without a NUL is its own C string. -/
theorem c_str_eq_self (s : String) (h : NUL ∉ s.data) : c_str s = s := by
  unfold c_str
  have hk : s.data.takeWhile (fun c => c != NUL) = s.data := by
    rw [List.takeWhile_eq_self_iff]
    intro c hc
    simp only [bne_iff_ne, ne_eq]
    intro hcn
    exact h (hcn ▸ hc)
  rw [hk]

/-- A size below `2^31` is kept by the cast to `int`. -/
theorem static_cast_int_of_lt (n : Nat) (h : n < 2 ^ 31) : static_cast_int n = (n : Int) := by
  unfold static_cast_int
  have h1 : (n + 2 ^ 31) % 2 ^ 32 = n + 2 ^ 31 := Nat.mod_eq_of_lt (by omega)
  rw [h1]
  push_cast
  ring

/-- The vector `bigArgs` has `2^31` elements. -/
theorem bigArgs_length : bigArgs.length = 2147483648 := by
  simp only [bigArgs, List.length_map, List.length_range]

/-- The pointer argument is null exactly for the empty vector. -/
theorem rawArgsPtr_eq (args : List Value) :
    rawArgsPtr (rawArgsOf args) = if args = [] then none else some (args.map Value.handle) := by
  cases args <;> simp [rawArgsPtr, rawArgsOf]

/-- Appending calls other than `etch_value_free` leaves the count of frees. -/
theorem frees_log_of_ne (w : World σ) (c : Call) (s : σ) (h : Handle)
    (hc : c ≠ Call.etch_value_free (some h)) : (w.log c s).frees h = w.frees h := by
  simp only [World.frees, World.log, List.count_append]
  rw [List.count_singleton]
  have hne : (c == Call.etch_value_free (some h)) = false := by simpa using hc
  simp [hne]

/-- A live object lies inside the heap. -/
theorem obj_some (m : Machine σ) (a : Addr) (x : Value) (h : m.obj a = some x) :
    a < m.heap.length ∧ m.heap[a]? = some (some x) := by
  unfold Machine.obj at h
  cases hg : m.heap[a]? with
  | none => rw [hg] at h; simp at h
  | some o =>
    rw [hg] at h
    simp only [Option.join] at h
    subst h
    exact ⟨(List.getElem?_eq_some.mp hg).1, rfl⟩

/-- An object that holds no handle answers as Nil. -/
theorem answersNil_of_empty (N : Native σ) (m : Machine σ) (v : Addr)
    (h : m.obj v = some ⟨none⟩) : m.answersNil N v := by
  refine ⟨⟨none⟩, h, rfl, rfl, rfl, rfl, rfl, rfl, rfl, ?_⟩
  simp [Machine.destroy, h, Value.dtor]

/-- Overwriting one element moves one unit of count from the old element to
the new one. -/
theorem count_set_add {α : Type} [BEq α] [LawfulBEq α] (l : List α) (i : Nat) (a old b : α)
    (h : l[i]? = some old) :
    (l.set i a).count b + (if old == b then 1 else 0) =
      l.count b + (if a == b then 1 else 0) := by
  induction l generalizing i with
  | nil => simp at h
  | cons x xs ih =>
    cases i with
    | zero =>
      simp only [List.getElem?_cons_zero, Option.some.injEq] at h
      subst h
      simp only [List.set_cons_zero, List.count_cons]
      omega
    | succ j =>
      simp only [List.getElem?_cons_succ] at h
      have hj := ih j h
      simp only [List.set_cons_succ, List.count_cons]
      omega

/-- The owners of a handle after the object at `a` is overwritten. -/
theorem owners_set (m : Machine σ) (w : World σ) (a : Addr) (old new : Option Value)
    (h : Handle) (hold : m.heap[a]? = some old) :
    (Machine.mk w (m.heap.set a new)).owners h + (if old = some ⟨some h⟩ then 1 else 0) =
      m.owners h + (if new = some ⟨some h⟩ then 1 else 0) := by
  have hc := count_set_add m.heap a new old (some ⟨some h⟩) hold
  simpa only [Machine.owners, beq_iff_eq] using hc

/-- The owners of a handle after a new object is placed. -/
theorem owners_construct (m : Machine σ) (w : World σ) (v : Value) (h : Handle) :
    (m.construct w v).owners h = m.owners h + (if v.value_ = some h then 1 else 0) := by
  simp only [Machine.owners, Machine.construct, List.count_append, List.count_singleton,
    beq_iff_eq, Option.some.injEq]
  cases v with
  | mk x => simp only [Value.mk.injEq]

/-- The frees of a handle after one more call of `etch_value_free`. -/
theorem frees_log_free (w : World σ) (s : σ) (h0 h : Handle) :
    (w.log (Call.etch_value_free (some h0)) s).frees h =
      w.frees h + (if h0 = h then 1 else 0) := by
  simp [World.frees, World.log, List.count_append, List.count_singleton]

/-- The frees of a handle after a destructor body has run. -/
theorem frees_dtor (N : Native σ) (t : Value) (w : World σ) (h : Handle) :
    (Value.dtor N t w).frees h = w.frees h + (if t.value_ = some h then 1 else 0) := by
  unfold Value.dtor
  cases ht : t.value_ with
  | none => simp
  | some h0 => simp [frees_log_free]

/-- The owners of a handle after the live object at `a` changes state. -/
theorem owners_set_live (m : Machine σ) (w : World σ) (a : Addr) (t t1 : Value) (h : Handle)
    (hold : m.obj a = some t) :
    (Machine.mk w (m.heap.set a (some t1))).owners h + (if t.value_ = some h then 1 else 0) =
      m.owners h + (if t1.value_ = some h then 1 else 0) := by
  have hs := owners_set m w a (some t) (some t1) h (obj_some m a t hold).2
  cases t with
  | mk x =>
    cases t1 with
    | mk y => simpa only [Option.some.injEq, Value.mk.injEq] using hs

/-- The owners of a handle after the lifetime of the object at `a` ends. -/
theorem owners_set_dead (m : Machine σ) (w : World σ) (a : Addr) (t : Value) (h : Handle)
    (hold : m.obj a = some t) :
    (Machine.mk w (m.heap.set a none)).owners h + (if t.value_ = some h then 1 else 0) =
      m.owners h := by
  have hs := owners_set m w a (some t) none h (obj_some m a t hold).2
  cases t with
  | mk x => simpa only [Option.some.injEq, Value.mk.injEq, reduceCtorEq, if_false,
      Nat.add_zero] using hs

/-- Placing an object that holds a new handle keeps the invariant. -/
theorem inv_construct (m : Machine σ) (w : World σ) (v : Value) (hI : m.Inv)
    (hw : ∀ h, w.frees h = m.world.frees h) (hu : m.unowned v.value_ = true) :
    (m.construct w v).Inv := by
  intro h
  rw [owners_construct]
  have hh := hI h
  have hwh : (m.construct w v).world.frees h = m.world.frees h := hw h
  rw [hwh]
  cases hv : v.value_ with
  | none => simpa using hh
  | some h0 =>
    rw [hv] at hu
    simp only [Machine.unowned, Bool.and_eq_true, beq_iff_eq] at hu
    by_cases e : h0 = h
    · subst e
      simp only [if_true]
      omega
    · simpa [e] using hh

/-- A constructor that frees nothing and yields, if anything, a Value that
holds a new handle keeps the invariant. -/
theorem inv_constructOrThrow (m : Machine σ) (res : Except Exception Value × World σ)
    (r : EtchValue) (hI : m.Inv) (hu : m.unowned r = true)
    (hw : ∀ h, res.2.frees h = m.world.frees h)
    (hv : ∀ x, res.1 = Except.ok x → x.value_ = r) : (m.constructOrThrow res).Inv := by
  unfold Machine.constructOrThrow
  cases hres : res.1 with
  | ok x =>
    simp only
    exact inv_construct m res.2 x hI hw (by rw [hv x hres]; exact hu)
  | error e =>
    simp only
    intro h
    have hh := hI h
    have hwh := hw h
    show m.owners h + res.2.frees h ≤ 1
    omega

/-- One operation that obeys the ownership discipline keeps the invariant. -/
theorem step_inv (N : Native σ) (m m1 : Machine σ) (op : Op) (hI : m.Inv)
    (hu : m.unowned (m.incoming N op) = true) (hs : m.step N op = some m1) : m1.Inv := by
  cases op with
  | newNil =>
    simp only [Machine.step, Option.some.injEq] at hs
    subst hs
    exact inv_construct m _ _ hI
      (fun h => frees_log_of_ne m.world _ _ h (by simp)) hu
  | newInt v =>
    simp only [Machine.step, Option.some.injEq] at hs
    subst hs
    refine inv_constructOrThrow m _ _ hI hu ?_ ?_
    · intro h
      simp only [Value.ctor_int]
      cases (N.etch_value_new_int v m.world.native).1 <;>
        exact frees_log_of_ne m.world _ _ h (by simp)
    · intro x
      simp only [Value.ctor_int, Machine.incoming]
      cases (N.etch_value_new_int v m.world.native).1 <;> simp
      intro e
      rw [← e]
  | newFloat v =>
    simp only [Machine.step, Option.some.injEq] at hs
    subst hs
    refine inv_constructOrThrow m _ _ hI hu ?_ ?_
    · intro h
      simp only [Value.ctor_float]
      cases (N.etch_value_new_float v m.world.native).1 <;>
        exact frees_log_of_ne m.world _ _ h (by simp)
    · intro x
      simp only [Value.ctor_float, Machine.incoming]
      cases (N.etch_value_new_float v m.world.native).1 <;> simp
      intro e
      rw [← e]
  | newBool v =>
    simp only [Machine.step, Option.some.injEq] at hs
    subst hs
    refine inv_constructOrThrow m _ _ hI hu ?_ ?_
    · intro h
      simp only [Value.ctor_bool]
      cases (N.etch_value_new_bool (if v then 1 else 0) m.world.native).1 <;>
        exact frees_log_of_ne m.world _ _ h (by simp)
    · intro x
      simp only [Value.ctor_bool, Machine.incoming]
      cases (N.etch_value_new_bool (if v then 1 else 0) m.world.native).1 <;> simp
      intro e
      rw [← e]
  | newString v =>
    simp only [Machine.step, Option.some.injEq] at hs
    subst hs
    refine inv_constructOrThrow m _ _ hI hu ?_ ?_
    · intro h
      simp only [Value.ctor_string]
      cases (N.etch_value_new_string (c_str v) m.world.native).1 <;>
        exact frees_log_of_ne m.world _ _ h (by simp)
    · intro x
      simp only [Value.ctor_string, Machine.incoming]
      cases (N.etch_value_new_string (c_str v) m.world.native).1 <;> simp
      intro e
      rw [← e]
  | newCStr v =>
    simp only [Machine.step, Option.some.injEq] at hs
    subst hs
    refine inv_constructOrThrow m _ _ hI hu ?_ ?_
    · intro h
      simp only [Value.ctor_cstr]
      cases (N.etch_value_new_string (c_str v) m.world.native).1 <;>
        exact frees_log_of_ne m.world _ _ h (by simp)
    · intro x
      simp only [Value.ctor_cstr, Machine.incoming]
      cases (N.etch_value_new_string (c_str v) m.world.native).1 <;> simp
      intro e
      rw [← e]
  | newChar v =>
    simp only [Machine.step, Option.some.injEq] at hs
    subst hs
    refine inv_constructOrThrow m _ _ hI hu ?_ ?_
    · intro h
      simp only [Value.ctor_char]
      cases (N.etch_value_new_char v m.world.native).1 <;>
        exact frees_log_of_ne m.world _ _ h (by simp)
    · intro x
      simp only [Value.ctor_char, Machine.incoming]
      cases (N.etch_value_new_char v m.world.native).1 <;> simp
      intro e
      rw [← e]
  | adopt r =>
    simp only [Machine.step, Option.some.injEq] at hs
    subst hs
    exact inv_construct m m.world (Value.ctor_handle r) hI (fun _ => rfl) hu
  | moveConstruct other =>
    simp only [Machine.step, Machine.ctor_move] at hs
    cases ho : m.obj other with
    | none => simp [ho] at hs
    | some o =>
      simp only [ho, Option.some.injEq] at hs
      subst hs
      intro h
      have h1 := owners_construct (Machine.mk m.world (m.heap.set other (some ⟨none⟩)))
        m.world ⟨o.value_⟩ h
      have h2 := owners_set_live m m.world other o ⟨none⟩ h ho
      have hh := hI h
      simp only [Machine.construct] at h1
      simp only [reduceCtorEq, if_false, Nat.add_zero] at h2
      show Machine.owners _ h + m.world.frees h ≤ 1
      rw [h1]
      omega
  | moveAssign this other =>
    simp only [Machine.step, Machine.move_assign] at hs
    cases ht : m.obj this with
    | none => simp [ht] at hs
    | some t =>
      cases ho : m.obj other with
      | none => simp [ht, ho] at hs
      | some o =>
        simp only [ht, ho] at hs
        by_cases hne : this = other
        · simp only [hne, ne_eq, not_true_eq_false, if_false, Option.some.injEq] at hs
          subst hs
          exact hI
        · simp only [hne, ne_eq, not_false_eq_true, if_true, Option.some.injEq] at hs
          subst hs
          intro h
          have hw : (match t.value_ with
              | none => m.world
              | some h0 => m.world.log (Call.etch_value_free (some h0))
                  (N.etch_value_free (some h0) m.world.native)) = Value.dtor N t m.world := by
            unfold Value.dtor
            cases t.value_ <;> rfl
          have hf := frees_dtor N t m.world h
          have h1 := owners_set_live m m.world this t ⟨o.value_⟩ h ht
          have ho1 : (Machine.mk m.world (m.heap.set this (some ⟨o.value_⟩))).obj other
              = some o := by
            have hoo := ho
            simp only [Machine.obj] at hoo ⊢
            rw [List.getElem?_set_ne hne]
            exact hoo
          have h2 := owners_set_live (Machine.mk m.world (m.heap.set this (some ⟨o.value_⟩)))
            (Value.dtor N t m.world) other o ⟨none⟩ h ho1
          have hh := hI h
          simp only [reduceCtorEq, if_false, Nat.add_zero] at h2
          simp only at h1
          rw [hw]
          show Machine.owners _ h + (Value.dtor N t m.world).frees h ≤ 1
          omega
  | release this =>
    simp only [Machine.step, Machine.release] at hs
    cases ht : m.obj this with
    | none => simp [ht] at hs
    | some t =>
      simp only [ht, Option.map_some', Option.some.injEq, Value.release] at hs
      subst hs
      intro h
      have h1 := owners_set_live m m.world this t ⟨none⟩ h ht
      have hh := hI h
      simp only [reduceCtorEq, if_false, Nat.add_zero] at h1
      show Machine.owners _ h + m.world.frees h ≤ 1
      omega
  | handle this =>
    simp only [Machine.step] at hs
    cases ht : m.obj this with
    | none => simp [ht] at hs
    | some t =>
      simp only [ht, Option.map_some', Option.some.injEq] at hs
      subst hs
      exact hI
  | destroy this =>
    simp only [Machine.step, Machine.destroy] at hs
    cases ht : m.obj this with
    | none => simp [ht] at hs
    | some t =>
      simp only [ht, Option.some.injEq] at hs
      subst hs
      intro h
      have h1 := owners_set_dead m (Value.dtor N t m.world) this t h ht
      have hf := frees_dtor N t m.world h
      have hh := hI h
      show Machine.owners _ h + (Value.dtor N t m.world).frees h ≤ 1
      omega

/-- A run that obeys the ownership discipline keeps the invariant at every
point. -/
theorem run_inv (N : Native σ) : ∀ (ops : List Op) (m : Machine σ), m.Inv →
    Machine.disciplined N m ops = true → (Machine.run N m ops).isSome = true →
    ∀ k, ∃ mk, Machine.run N m (ops.take k) = some mk ∧ mk.Inv
  | [], m, hI, _, _, k => ⟨m, by simp [Machine.run], hI⟩
  | op :: ops, m, hI, hd, hr, 0 => ⟨m, by simp [Machine.run], hI⟩
  | op :: ops, m, hI, hd, hr, k + 1 => by
    simp only [Machine.disciplined, Bool.and_eq_true] at hd
    simp only [Machine.run] at hr
    cases hs : m.step N op with
    | none => simp [hs] at hr
    | some m1 =>
      simp only [hs] at hd hr
      obtain ⟨mk, hk, hIk⟩ := run_inv N ops m1 (step_inv N m m1 op hI hd.1 hs) hd.2 hr k
      exact ⟨mk, by simp only [List.take_succ_cons, Machine.run, hs, hk], hIk⟩

/-- The reference engine stores and returns what it is given, in every state. -/
theorem refNative_storesAt (s : RefState) : refNative.StoresAt s := by
  constructor <;> intro v <;>
    exact ⟨s.cells.length, rfl, by simp [refNative, RefState.alloc, RefState.cell]⟩

end Lemmas

section Claims
variable {σ : Type}

/-- C1, as stated, fails: the reference engine allocates and gives back what
it is given, yet the `std::string` "a", NUL, "b" comes back from `toString`
as "a", since the constructor passes `c_str()`, which ends at the embedded
NUL. -/
theorem roundTrip_string_embedded_NUL :
    refNative.StoresAt refWorld.native ∧
      roundTripString refNative nulString refWorld = Except.ok "a" ∧ nulString ≠ "a" ∧
      nulString.length = 3 :=
  ⟨refNative_storesAt refState, by decide, by decide, by decide⟩

/-- C1, amended: for every native layer that allocates and gives back what it
was given, constructing a `Value` from an int64, a float64, a bool or a char
and calling the matching accessor returns the original; for a string the
result is the part of the string before its first NUL, hence the original
string whenever it holds no NUL. -/
theorem roundTrip_primitives (N : Native σ) (w : World σ) (hN : N.StoresAt w.native) :
    (∀ v : int64_t, roundTripInt N v w = Except.ok v) ∧
    (∀ v : double, roundTripFloat N v w = Except.ok v) ∧
    (∀ v : Bool, roundTripBool N v w = Except.ok v) ∧
    (∀ v : c_char, roundTripChar N v w = Except.ok v) ∧
    (∀ v : String, roundTripString N v w = Except.ok (c_str v)) ∧
    (∀ v : String, NUL ∉ v.data → roundTripString N v w = Except.ok v) := by
  have hs : ∀ v : String, roundTripString N v w = Except.ok (c_str v) := by
    intro v
    obtain ⟨h, h1, h2⟩ := hN.string v
    simp [roundTripString, Value.ctor_string, Value.toString, World.log, h1, h2]
  refine ⟨?_, ?_, ?_, ?_, hs, ?_⟩
  · intro v
    obtain ⟨h, h1, h2⟩ := hN.int v
    simp [roundTripInt, Value.ctor_int, Value.toInt, World.log, h1, h2]
  · intro v
    obtain ⟨h, h1, h2⟩ := hN.float v
    simp [roundTripFloat, Value.ctor_float, Value.toFloat, World.log, h1, h2]
  · intro v
    obtain ⟨h, h1, h2⟩ := hN.bool (if v then 1 else 0)
    cases v <;> simp [roundTripBool, Value.ctor_bool, Value.toBool, World.log] at h1 h2 ⊢ <;>
      simp [h1, h2]
  · intro v
    obtain ⟨h, h1, h2⟩ := hN.char v
    simp [roundTripChar, Value.ctor_char, Value.toChar, World.log, h1, h2]
  · intro v hv
    rw [hs v, c_str_eq_self v hv]

/-- The round trip on the reference engine, for one value of each kind. -/
theorem roundTrip_primitives_witness :
    refNative.StoresAt refWorld.native ∧
      roundTripInt refNative (-42) refWorld = Except.ok (-42) ∧
      roundTripBool refNative true refWorld = Except.ok true ∧
      roundTripString refNative "" refWorld = Except.ok "" ∧
      roundTripString refNative "fn main" refWorld = Except.ok "fn main" :=
  ⟨refNative_storesAt refState,
    (roundTrip_primitives refNative refWorld (refNative_storesAt refState)).1 (-42),
    (roundTrip_primitives refNative refWorld (refNative_storesAt refState)).2.2.1 true,
    (roundTrip_primitives refNative refWorld (refNative_storesAt refState)).2.2.2.2.2 ""
      (by decide),
    (roundTrip_primitives refNative refWorld (refNative_storesAt refState)).2.2.2.2.2 "fn main"
      (by decide)⟩

/-- C7, as stated, fails: on the reference engine the default constructor
calls `etch_value_new_nil`, holds the handle it returned, and the destructor
frees that handle. -/
theorem ctor_nil_allocates :
    (Value.ctor_nil refNative refWorld).1.handle = some 0 ∧
      (Value.ctor_nil refNative refWorld).2.trace = [Call.etch_value_new_nil] ∧
      (Value.dtor refNative (Value.ctor_nil refNative refWorld).1
        (Value.ctor_nil refNative refWorld).2).trace =
        [Call.etch_value_new_nil, Call.etch_value_free (some 0)] := by
  decide

/-- C7, amended: the default constructor never throws; it makes exactly one
native call, `etch_value_new_nil`, and holds whatever handle that call
returned, unchecked; destroying the Value frees that handle once when it is
not null and makes no native call when it is null. -/
theorem ctor_nil_holds_native_handle (N : Native σ) (w : World σ) :
    (Value.ctor_nil N w).1.handle = (N.etch_value_new_nil w.native).1 ∧
      (Value.ctor_nil N w).2.native = (N.etch_value_new_nil w.native).2 ∧
      (Value.ctor_nil N w).2.trace = w.trace ++ [Call.etch_value_new_nil] ∧
      (Value.dtor N (Value.ctor_nil N w).1 (Value.ctor_nil N w).2).trace =
        (Value.ctor_nil N w).2.trace ++
          (match (N.etch_value_new_nil w.native).1 with
            | some h => [Call.etch_value_free (some h)]
            | none => []) := by
  refine ⟨rfl, rfl, rfl, ?_⟩
  simp only [Value.dtor, Value.ctor_nil]
  cases (N.etch_value_new_nil w.native).1 <;> simp [World.log]

/-- C4, as stated, fails: when `etch_execute` reports status 1 and
`etch_get_error` returns the empty text, `execute()` throws (with the empty
message) instead of returning 1. -/
theorem execute_throws_on_empty_message :
    (Context.execute refNative refCtx (refFailing (some ""))).1 = Except.error ⟨""⟩ ∧
      refNative.etch_execute refCtx.ctx_ (refFailing (some "")).native =
        (1, (refFailing (some "")).native) ∧
      refNative.etch_get_error refCtx.ctx_ (refFailing (some "")).native = some "" := by
  decide

/-- C4, amended: `execute()` returns 0 without throwing when the native
status is 0; for a non-zero status it throws, carrying the last-error text,
exactly when `etch_get_error` returns a text (an empty text included), and
when `etch_get_error` returns none it throws nothing and returns that same
status. -/
theorem execute_outcome (N : Native σ) (self : Context) (w : World σ)
    (status : c_int) (s1 : σ) (err : Option String)
    (hexec : N.etch_execute self.ctx_ w.native = (status, s1))
    (herr : N.etch_get_error self.ctx_ s1 = err) :
    (status = 0 → (Context.execute N self w).1 = Except.ok 0) ∧
    (status ≠ 0 → ∀ msg, err = some msg →
      (Context.execute N self w).1 = Except.error ⟨msg⟩) ∧
    (status ≠ 0 → err = none → (Context.execute N self w).1 = Except.ok status) ∧
    ((∃ e, (Context.execute N self w).1 = Except.error e) ↔ (status ≠ 0 ∧ err.isSome)) := by
  subst herr
  by_cases h0 : status = 0
  · subst h0
    simp [Context.execute, hexec]
  · cases hg : N.etch_get_error self.ctx_ s1 <;>
      simp [Context.execute, hexec, h0, World.log, hg]

/-- The three outcomes of `execute()` on the reference engine. -/
theorem execute_outcome_witness :
    (Context.execute refNative refCtx refWorld).1 = Except.ok 0 ∧
      (Context.execute refNative refCtx (refFailing (some "boom"))).1 = Except.error ⟨"boom"⟩ ∧
      (Context.execute refNative refCtx (refFailing none)).1 = Except.ok 1 :=
  ⟨(execute_outcome refNative refCtx refWorld 0 refState none rfl rfl).1 rfl,
    (execute_outcome refNative refCtx (refFailing (some "boom")) 1
      (refFailing (some "boom")).native (some "boom") rfl rfl).2.1 (by decide) "boom" rfl,
    (execute_outcome refNative refCtx (refFailing none) 1
      (refFailing none).native none rfl rfl).2.2.1 (by decide) rfl⟩

/-- C9, as stated, fails: with a non-zero compile status and the empty text
in the last-error slot, `compileString` and `compileFile` throw with the
empty message, not with the generic message. -/
theorem compile_throws_empty_message :
    (Context.compileString refNative refCtx "fn (" "<string>" (refFailing (some ""))).1
        = Except.error ⟨""⟩ ∧
      (Context.compileFile refNative refCtx "a.etch" (refFailing (some ""))).1
        = Except.error ⟨""⟩ ∧
      (refNative.etch_compile_string refCtx.ctx_ "fn (" "<string>"
        (refFailing (some "")).native).1 = 1 ∧
      (refNative.etch_compile_file refCtx.ctx_ "a.etch" (refFailing (some "")).native).1 = 1 ∧
      refNative.etch_get_error refCtx.ctx_ (refFailing (some "")).native = some "" := by
  decide

/-- C9, amended: `compileString` and `compileFile` succeed exactly when the
native compile status is 0, and then make no call of `etch_get_error`; on a
non-zero status they query `etch_get_error` and throw with the text it
returns as message, an empty text included, and with "Compilation failed" /
"Failed to compile file" only when it returns no text. -/
theorem compile_outcome (N : Native σ) (self : Context) (source filename path : String)
    (w : World σ) (st1 st2 : c_int) (s1 s2 : σ)
    (hstr : N.etch_compile_string self.ctx_ (c_str source) (c_str filename) w.native = (st1, s1))
    (hfile : N.etch_compile_file self.ctx_ (c_str path) w.native = (st2, s2)) :
    (((Context.compileString N self source filename w).1 = Except.ok () ↔ st1 = 0) ∧
      (st1 = 0 → Context.compileString N self source filename w = (Except.ok (),
        ⟨s1, w.trace ++ [Call.etch_compile_string self.ctx_ (c_str source) (c_str filename)]⟩)) ∧
      (st1 ≠ 0 →
        (∀ msg, N.etch_get_error self.ctx_ s1 = some msg →
          (Context.compileString N self source filename w).1 = Except.error ⟨msg⟩) ∧
        (N.etch_get_error self.ctx_ s1 = none →
          (Context.compileString N self source filename w).1 =
            Except.error ⟨"Compilation failed"⟩) ∧
        (Context.compileString N self source filename w).2 = ⟨s1, w.trace ++
          [Call.etch_compile_string self.ctx_ (c_str source) (c_str filename),
            Call.etch_get_error self.ctx_]⟩)) ∧
    (((Context.compileFile N self path w).1 = Except.ok () ↔ st2 = 0) ∧
      (st2 = 0 → Context.compileFile N self path w = (Except.ok (),
        ⟨s2, w.trace ++ [Call.etch_compile_file self.ctx_ (c_str path)]⟩)) ∧
      (st2 ≠ 0 →
        (∀ msg, N.etch_get_error self.ctx_ s2 = some msg →
          (Context.compileFile N self path w).1 = Except.error ⟨msg⟩) ∧
        (N.etch_get_error self.ctx_ s2 = none →
          (Context.compileFile N self path w).1 = Except.error ⟨"Failed to compile file"⟩) ∧
        (Context.compileFile N self path w).2 = ⟨s2, w.trace ++
          [Call.etch_compile_file self.ctx_ (c_str path), Call.etch_get_error self.ctx_]⟩)) := by
  constructor
  · by_cases h0 : st1 = 0
    · subst h0
      simp [Context.compileString, hstr, World.log]
    · cases hg : N.etch_get_error self.ctx_ s1 <;>
        simp [Context.compileString, hstr, h0, World.log, hg]
  · by_cases h0 : st2 = 0
    · subst h0
      simp [Context.compileFile, hfile, World.log]
    · cases hg : N.etch_get_error self.ctx_ s2 <;>
        simp [Context.compileFile, hfile, h0, World.log, hg]

/-- Compilation on the reference engine: success, failure with a diagnostic,
failure with the empty diagnostic, failure with no diagnostic. -/
theorem compile_outcome_witness :
    (Context.compileString refNative refCtx "fn main(): int" "<string>" refWorld).1
        = Except.ok () ∧
      (Context.compileString refNative refCtx "fn (" "<string>" (refFailing (some "boom"))).1
        = Except.error ⟨"boom"⟩ ∧
      (Context.compileString refNative refCtx "fn (" "<string>" (refFailing (some ""))).1
        = Except.error ⟨""⟩ ∧
      (Context.compileFile refNative refCtx "a.etch" (refFailing none)).1
        = Except.error ⟨"Failed to compile file"⟩ :=
  ⟨(compile_outcome refNative refCtx "fn main(): int" "<string>" "a.etch" refWorld 0 0
      refState refState rfl rfl).1.1.2 rfl,
    ((compile_outcome refNative refCtx "fn (" "<string>" "a.etch" (refFailing (some "boom")) 1 1
      (refFailing (some "boom")).native (refFailing (some "boom")).native rfl rfl).1.2.2
      (by decide)).1 "boom" rfl,
    ((compile_outcome refNative refCtx "fn (" "<string>" "a.etch" (refFailing (some "")) 1 1
      (refFailing (some "")).native (refFailing (some "")).native rfl rfl).1.2.2
      (by decide)).1 "" rfl,
    ((compile_outcome refNative refCtx "fn (" "<string>" "a.etch" (refFailing none) 1 1
      (refFailing none).native (refFailing none).native rfl rfl).2.2.2 (by decide)).2.1 rfl⟩

/-- C10: each of `toInt`, `toFloat`, `toBool`, `toChar` throws exactly when
the native conversion returns a non-zero flag and otherwise returns the value
the native layer wrote (for `toBool`, whether it is non-zero); `toString`
throws exactly when the native layer returns no character data and otherwise
returns the text it returned, the empty text included. -/
theorem accessor_outcome (N : Native σ) (self : Value) (w : World σ) :
    (((Value.toInt N self w).1 = Except.error ⟨"Value is not an integer"⟩ ↔
        (N.etch_value_to_int self.value_ w.native).1 ≠ 0) ∧
      ((N.etch_value_to_int self.value_ w.native).1 = 0 →
        (Value.toInt N self w).1 = Except.ok (N.etch_value_to_int self.value_ w.native).2)) ∧
    (((Value.toFloat N self w).1 = Except.error ⟨"Value is not a float"⟩ ↔
        (N.etch_value_to_float self.value_ w.native).1 ≠ 0) ∧
      ((N.etch_value_to_float self.value_ w.native).1 = 0 →
        (Value.toFloat N self w).1 = Except.ok (N.etch_value_to_float self.value_ w.native).2)) ∧
    (((Value.toBool N self w).1 = Except.error ⟨"Value is not a boolean"⟩ ↔
        (N.etch_value_to_bool self.value_ w.native).1 ≠ 0) ∧
      ((N.etch_value_to_bool self.value_ w.native).1 = 0 →
        (Value.toBool N self w).1 =
          Except.ok ((N.etch_value_to_bool self.value_ w.native).2 != 0))) ∧
    (((Value.toChar N self w).1 = Except.error ⟨"Value is not a character"⟩ ↔
        (N.etch_value_to_char self.value_ w.native).1 ≠ 0) ∧
      ((N.etch_value_to_char self.value_ w.native).1 = 0 →
        (Value.toChar N self w).1 = Except.ok (N.etch_value_to_char self.value_ w.native).2)) ∧
    (((Value.toString N self w).1 = Except.error ⟨"Value is not a string"⟩ ↔
        N.etch_value_to_string self.value_ w.native = none) ∧
      (∀ str, N.etch_value_to_string self.value_ w.native = some str →
        (Value.toString N self w).1 = Except.ok str) ∧
      (N.etch_value_to_string self.value_ w.native = some "" →
        (Value.toString N self w).1 = Except.ok "")) := by
  refine ⟨?_, ?_, ?_, ?_, ?_⟩
  · by_cases h : (N.etch_value_to_int self.value_ w.native).1 = 0 <;> simp [Value.toInt, h]
  · by_cases h : (N.etch_value_to_float self.value_ w.native).1 = 0 <;> simp [Value.toFloat, h]
  · by_cases h : (N.etch_value_to_bool self.value_ w.native).1 = 0 <;> simp [Value.toBool, h]
  · by_cases h : (N.etch_value_to_char self.value_ w.native).1 = 0 <;> simp [Value.toChar, h]
  · cases h : N.etch_value_to_string self.value_ w.native <;> simp [Value.toString, h]

/-- On the reference engine: `toFloat` and `toString` on an int-tagged Value
throw, `toInt` returns the integer, and `toString` on a Value holding the
empty string returns the empty string. -/
theorem accessor_outcome_witness :
    (Value.toFloat refNative ⟨some 0⟩ (refNative.etch_value_new_int 7 refState).2.toWorld).1
        = Except.error ⟨"Value is not a float"⟩ ∧
      (Value.toInt refNative ⟨some 0⟩ (refNative.etch_value_new_int 7 refState).2.toWorld).1
        = Except.ok 7 ∧
      (Value.toString refNative ⟨some 0⟩
        (refNative.etch_value_new_string "" refState).2.toWorld).1 = Except.ok "" :=
  ⟨(accessor_outcome refNative ⟨some 0⟩
      (refNative.etch_value_new_int 7 refState).2.toWorld).2.1.1.2 (by decide),
    (accessor_outcome refNative ⟨some 0⟩
      (refNative.etch_value_new_int 7 refState).2.toWorld).1.2 (by decide),
    (accessor_outcome refNative ⟨some 0⟩
      (refNative.etch_value_new_string "" refState).2.toWorld).2.2.2.2.2.2 (by decide)⟩

/-- C8, as stated, fails for `getGlobal` and `registerFunction`: with "boom"
in the last-error slot, a failed `getGlobal` makes the one native call
`etch_get_global` and throws a fixed text naming the global, and a rejected
`registerFunction` makes the one native call `etch_register_function` and
throws a fixed text naming the function; neither queries `etch_get_error`. -/
theorem lookup_and_registration_skip_error_query :
    Context.getGlobal refNative refCtx "x" refRegistered =
        (Except.error ⟨"Global variable not found: x"⟩,
          ⟨refRegistered.native, [Call.etch_get_global (some 0) "x"]⟩) ∧
      Context.registerFunction refNative refCtx "f" 0 none refRegistered =
        (Except.error ⟨"Failed to register function: f"⟩,
          ⟨refRegistered.native, [Call.etch_register_function (some 0) "f" 0 none]⟩) ∧
      refNative.etch_get_error (some 0) refRegistered.native = some "boom" := by
  decide

/-- C8, amended: when the native call of `compileString`, `compileFile` or
`callFunction` signals failure, the next native call is `etch_get_error` on
the same context, in the native state the failing call left, and the
exception carries that text, or a fixed fallback when there is none; a
non-zero `execute` is followed at once by `etch_get_error` and throws that
text when there is one, and throws nothing when there is none.  A failing `getGlobal` or `registerFunction` makes no
further native call and throws a fixed text that ends in the name. -/
theorem error_bridge (N : Native σ) (self : Context) (w : World σ)
    (source filename path name : String) (args : List Value)
    (callback : EtchHostFunction) (userData : VoidPtr) :
    ((N.etch_compile_string self.ctx_ (c_str source) (c_str filename) w.native).1 ≠ 0 →
      (Context.compileString N self source filename w).2.trace = w.trace ++
        [Call.etch_compile_string self.ctx_ (c_str source) (c_str filename),
          Call.etch_get_error self.ctx_] ∧
      (Context.compileString N self source filename w).1 = Except.error
        ⟨(N.etch_get_error self.ctx_ (N.etch_compile_string self.ctx_ (c_str source)
          (c_str filename) w.native).2).getD "Compilation failed"⟩) ∧
    ((N.etch_compile_file self.ctx_ (c_str path) w.native).1 ≠ 0 →
      (Context.compileFile N self path w).2.trace = w.trace ++
        [Call.etch_compile_file self.ctx_ (c_str path), Call.etch_get_error self.ctx_] ∧
      (Context.compileFile N self path w).1 = Except.error
        ⟨(N.etch_get_error self.ctx_ (N.etch_compile_file self.ctx_ (c_str path)
          w.native).2).getD "Failed to compile file"⟩) ∧
    ((N.etch_execute self.ctx_ w.native).1 ≠ 0 →
      (Context.execute N self w).2.trace = w.trace ++
        [Call.etch_execute self.ctx_, Call.etch_get_error self.ctx_] ∧
      (∀ msg, N.etch_get_error self.ctx_ (N.etch_execute self.ctx_ w.native).2 = some msg →
        (Context.execute N self w).1 = Except.error ⟨msg⟩) ∧
      (N.etch_get_error self.ctx_ (N.etch_execute self.ctx_ w.native).2 = none →
        (Context.execute N self w).1 = Except.ok (N.etch_execute self.ctx_ w.native).1)) ∧
    ((N.etch_call_function self.ctx_ (c_str name) (rawArgsPtr (rawArgsOf args))
        (static_cast_int (rawArgsOf args).length) w.native).1 = none →
      (Context.callFunction N self name args w).2.trace = w.trace ++
        [Call.etch_call_function self.ctx_ (c_str name) (rawArgsPtr (rawArgsOf args))
          (static_cast_int (rawArgsOf args).length), Call.etch_get_error self.ctx_] ∧
      (Context.callFunction N self name args w).1 = Except.error
        ⟨(N.etch_get_error self.ctx_ (N.etch_call_function self.ctx_ (c_str name)
          (rawArgsPtr (rawArgsOf args)) (static_cast_int (rawArgsOf args).length)
          w.native).2).getD "Function call failed"⟩) ∧
    ((N.etch_get_global self.ctx_ (c_str name) w.native).1 = none →
      (Context.getGlobal N self name w).2.trace = w.trace ++
        [Call.etch_get_global self.ctx_ (c_str name)] ∧
      (Context.getGlobal N self name w).1 =
        Except.error ⟨"Global variable not found: " ++ name⟩) ∧
    ((N.etch_register_function self.ctx_ (c_str name) callback userData w.native).1 ≠ 0 →
      (Context.registerFunction N self name callback userData w).2.trace = w.trace ++
        [Call.etch_register_function self.ctx_ (c_str name) callback userData] ∧
      (Context.registerFunction N self name callback userData w).1 =
        Except.error ⟨"Failed to register function: " ++ name⟩) := by
  refine ⟨?_, ?_, ?_, ?_, ?_, ?_⟩
  · intro h
    cases hg : N.etch_get_error self.ctx_ (N.etch_compile_string self.ctx_ (c_str source)
        (c_str filename) w.native).2 <;>
      simp [Context.compileString, h, World.log, hg]
  · intro h
    cases hg : N.etch_get_error self.ctx_ (N.etch_compile_file self.ctx_ (c_str path)
        w.native).2 <;>
      simp [Context.compileFile, h, World.log, hg]
  · intro h
    cases hg : N.etch_get_error self.ctx_ (N.etch_execute self.ctx_ w.native).2 <;>
      simp [Context.execute, h, World.log, hg]
  · intro h
    cases hg : N.etch_get_error self.ctx_ (N.etch_call_function self.ctx_ (c_str name)
        (rawArgsPtr (rawArgsOf args)) (static_cast_int (rawArgsOf args).length) w.native).2 <;>
      simp [Context.callFunction, h, World.log, hg]
  · intro h
    simp [Context.getGlobal, h, World.log]
  · intro h
    simp [Context.registerFunction, h, World.log]

/-- The error bridge on the reference engine: a failing `compileString` is
followed at once by `etch_get_error` and carries its text. -/
theorem error_bridge_witness :
    Context.compileString refNative refCtx "fn (" "<string>" (refFailing (some "boom")) =
      (Except.error ⟨"boom"⟩, ⟨(refFailing (some "boom")).native,
        [Call.etch_compile_string (some 0) "fn (" "<string>", Call.etch_get_error (some 0)]⟩) :=
  Prod.ext
    ((error_bridge refNative refCtx (refFailing (some "boom")) "fn (" "<string>" "" "" [] 0
      none).1 (by decide)).2
    (World.ext rfl
      ((error_bridge refNative refCtx (refFailing (some "boom")) "fn (" "<string>" "" "" [] 0
        none).1 (by decide)).1)

/-- C5, as stated, fails on the count: for a vector of `2^31` arguments the
count passed to `etch_call_function` is `static_cast<int>(2^31) = -2^31`, not
the size of the vector. -/
theorem callFunction_count_wraps :
    (Context.callFunction refNative refCtx "f" bigArgs refWorld).2.trace =
        [Call.etch_call_function (some 0) "f" (some (bigArgs.map Value.handle)) (-2147483648),
          Call.etch_get_error (some 0)] ∧
      bigArgs.length = 2147483648 := by
  refine ⟨?_, bigArgs_length⟩
  have hlen : (rawArgsOf bigArgs).length = 2147483648 := by
    simp only [rawArgsOf, List.length_map, bigArgs_length]
  have hne : bigArgs ≠ [] := by
    intro hb
    rw [hb] at hlen
    simp [rawArgsOf] at hlen
  have hcast : static_cast_int 2147483648 = -2147483648 := by decide
  have hc : c_str "f" = "f" := by decide
  simp only [Context.callFunction, hlen, hcast, rawArgsPtr_eq, hne, hc, if_false]
  rfl

/-- C5, amended: for every name and every argument vector of fewer than
`2^31` Values, `callFunction` passes the handles of the arguments in order
(a null pointer for no argument) with count the size of the vector; on a null
result it throws with the last-error text, or "Function call failed" if there
is none, otherwise it returns a Value that owns the returned handle; in both
outcomes no handle is freed. -/
theorem callFunction_outcome (N : Native σ) (self : Context) (name : String) (args : List Value)
    (w : World σ) (r : EtchValue) (s1 : σ) (hlen : args.length < 2 ^ 31)
    (hcall : N.etch_call_function self.ctx_ (c_str name)
      (if args = [] then none else some (args.map Value.handle)) (args.length : Int)
      w.native = (r, s1)) :
    (Context.callFunction N self name args w).2.trace = w.trace ++
        Call.etch_call_function self.ctx_ (c_str name)
          (if args = [] then none else some (args.map Value.handle)) (args.length : Int) ::
        (match r with
          | none => [Call.etch_get_error self.ctx_]
          | some _ => []) ∧
    (r = none → (Context.callFunction N self name args w).1 =
      Except.error ⟨(N.etch_get_error self.ctx_ s1).getD "Function call failed"⟩) ∧
    (∀ h, r = some h → (Context.callFunction N self name args w).1 = Except.ok ⟨some h⟩) ∧
    (∀ h, (Context.callFunction N self name args w).2.frees h = w.frees h) := by
  have hcount : static_cast_int (rawArgsOf args).length = (args.length : Int) := by
    simp only [rawArgsOf, List.length_map]
    exact static_cast_int_of_lt _ hlen
  have hdef : Context.callFunction N self name args w =
      match r with
      | none =>
        (Except.error ⟨(N.etch_get_error self.ctx_ s1).getD "Function call failed"⟩,
          ⟨s1, w.trace ++ [Call.etch_call_function self.ctx_ (c_str name)
            (if args = [] then none else some (args.map Value.handle)) (args.length : Int),
            Call.etch_get_error self.ctx_]⟩)
      | some h =>
        (Except.ok ⟨some h⟩,
          ⟨s1, w.trace ++ [Call.etch_call_function self.ctx_ (c_str name)
            (if args = [] then none else some (args.map Value.handle)) (args.length : Int)]⟩) := by
    unfold Context.callFunction
    simp only [hcount, rawArgsPtr_eq, hcall, World.log, Value.ctor_handle]
    cases r with
    | none => cases hg : N.etch_get_error self.ctx_ s1 <;> simp
    | some h => rfl
  rw [hdef]
  refine ⟨?_, ?_, ?_, ?_⟩
  · cases r <;> simp
  · intro hr
    subst hr
    rfl
  · intro h hr
    subst hr
    rfl
  · intro h
    cases r <;> simp [World.frees, List.count_cons]

/-- On the reference engine, `callFunction("f", [v])` with `v` owning handle 0
passes `[0]` with count 1, returns a Value owning the new handle 1 and frees
nothing; with no argument it passes a null pointer and count 0. -/
theorem callFunction_outcome_witness :
    (Context.callFunction refNative refCtx "f" [⟨some 0⟩] refCallable).1 = Except.ok ⟨some 1⟩ ∧
      (Context.callFunction refNative refCtx "f" [⟨some 0⟩] refCallable).2.trace =
        [Call.etch_call_function (some 0) "f" (some [some 0]) 1] ∧
      (Context.callFunction refNative refCtx "f" [] refCallable).2.trace =
        [Call.etch_call_function (some 0) "f" none 0] :=
  ⟨(callFunction_outcome refNative refCtx "f" [⟨some 0⟩] refCallable (some 1)
      (refNative.etch_call_function (some 0) "f" (some [some 0]) 1 refCallable.native).2
      (by decide) rfl).2.2.1 1 rfl,
    (callFunction_outcome refNative refCtx "f" [⟨some 0⟩] refCallable (some 1)
      (refNative.etch_call_function (some 0) "f" (some [some 0]) 1 refCallable.native).2
      (by decide) rfl).1,
    (callFunction_outcome refNative refCtx "f" [] refCallable (some 1)
      (refNative.etch_call_function (some 0) "f" none 0 refCallable.native).2
      (by decide) rfl).1⟩

/-- C3: once a live Value `v` has been moved from, by move construction or
by move assignment into a different Value, or has had `release()` called, it
holds no handle: `isNil` is true, `isInt`, `isFloat`, `isBool`, `isString`
are false and `getType` is `ETCH_TYPE_NIL`, each with no native call, and its
destruction frees nothing.  The moved-to Value holds the handle `v` held,
`release()` returns exactly that handle, move assignment frees only the
handle the target held, and move-assigning a Value to itself changes
nothing and frees nothing. -/
theorem moved_from_answers_nil (N : Native σ) (m : Machine σ) (v : Addr) (x : Value)
    (hv : m.obj v = some x) :
    (∃ m1, m.ctor_move v = some m1 ∧ m1.world = m.world ∧
      m1.obj m.heap.length = some x ∧ m1.answersNil N v) ∧
    (∀ d y, d ≠ v → m.obj d = some y →
      ∃ m1, m.move_assign N d v = some m1 ∧ m1.world = Value.dtor N y m.world ∧
        m1.obj d = some x ∧ m1.answersNil N v) ∧
    (∃ m1, m.release v = some (x.handle, m1) ∧ m1.world = m.world ∧ m1.answersNil N v) ∧
    m.move_assign N v v = some m := by
  obtain ⟨hlt, _⟩ := obj_some m v x hv
  refine ⟨?_, ?_, ?_, ?_⟩
  · refine ⟨⟨m.world, (m.heap.set v (some ⟨none⟩)) ++ [some ⟨x.value_⟩]⟩, ?_, rfl, ?_, ?_⟩
    · simp only [Machine.ctor_move, hv]
    · simp [Machine.obj]
    · apply answersNil_of_empty
      simp [Machine.obj, List.getElem?_append_left, hlt]
  · intro d y hd hy
    obtain ⟨hdlt, _⟩ := obj_some m d y hy
    refine ⟨⟨Value.dtor N y m.world,
      (m.heap.set d (some ⟨x.value_⟩)).set v (some ⟨none⟩)⟩, ?_, rfl, ?_, ?_⟩
    · simp only [Machine.move_assign, hv, hy, hd, ne_eq, not_false_eq_true, if_true,
        Value.dtor]
    · simp [Machine.obj, List.getElem?_set_ne (Ne.symm hd), hdlt]
    · apply answersNil_of_empty
      simp [Machine.obj, hlt]
  · refine ⟨⟨m.world, m.heap.set v (some ⟨none⟩)⟩, ?_, rfl, ?_⟩
    · simp only [Machine.release, hv, Value.release, Value.handle]
    · apply answersNil_of_empty
      simp [Machine.obj, hlt]
  · simp [Machine.move_assign, hv]

/-- On the reference engine, with the Value at address 0 owning handle 0 and
an empty Value at address 1: after `release()` the Value at 0 answers as Nil
and the handle 0 was returned; after move assignment into the Value at 1 the
Value at 0 answers as Nil. -/
theorem moved_from_answers_nil_witness :
    (∃ m1, refMachine.release 0 = some (some 0, m1) ∧ m1.world = refMachine.world ∧
        m1.answersNil refNative 0) ∧
      (∃ m1, refMachine.move_assign refNative 1 0 = some m1 ∧
        m1.world = Value.dtor refNative ⟨none⟩ refMachine.world ∧
        m1.obj 1 = some ⟨some 0⟩ ∧ m1.answersNil refNative 0) ∧
      refMachine.move_assign refNative 0 0 = some refMachine :=
  ⟨(moved_from_answers_nil refNative refMachine 0 ⟨some 0⟩ rfl).2.2.1,
    (moved_from_answers_nil refNative refMachine 0 ⟨some 0⟩ rfl).2.1 1 ⟨none⟩ (by decide) rfl,
    (moved_from_answers_nil refNative refMachine 0 ⟨some 0⟩ rfl).2.2.2⟩

/-- C2, as stated, fails: `Value(EtchValue)` takes any raw handle and
`handle()` gives out the handle of a live Value.  On the reference engine,
after `Value a(1); Value b(a.handle());` two Values own handle 0, and the
two destructors call `etch_value_free` on it twice. -/
theorem aliasing_double_free :
    (Machine.run refNative (Machine.init refState) (aliasingOps.take 3)).map
        (fun m => m.owners 0) = some 2 ∧
      (Machine.run refNative (Machine.init refState) aliasingOps).map
        (fun m => m.world.frees 0) = some 2 := by
  decide

/-- C2, amended: for every sequence of public Value operations in which each
handle given to `Value(EtchValue)` is null or is held by no live Value and
was not freed, and each handle a native constructor returns is new in that
sense, at every point of the run each handle is held by at most one live
Value, `etch_value_free` was called on it at most once, and never both. -/
theorem single_ownership (N : Native σ) (s : σ) (ops : List Op)
    (hd : Machine.disciplined N (Machine.init s) ops = true)
    (hrun : (Machine.run N (Machine.init s) ops).isSome = true) :
    ∀ k, ∃ mk, Machine.run N (Machine.init s) (ops.take k) = some mk ∧
      ∀ h, mk.owners h ≤ 1 ∧ mk.world.frees h ≤ 1 ∧ mk.owners h + mk.world.frees h ≤ 1 := by
  have h0 : (Machine.init s).Inv := by
    intro h
    simp [Machine.init, Machine.owners, World.frees]
  intro k
  obtain ⟨mk, hk, hI⟩ := run_inv N ops (Machine.init s) h0 hd hrun k
  refine ⟨mk, hk, fun h => ?_⟩
  have hh := hI h
  omega

/-- On the reference engine, a program that constructs, moves, releases,
adopts the released handle and destroys every object obeys the discipline,
and after all ten operations every handle has at most one owner and one
free. -/
theorem single_ownership_witness :
    Machine.disciplined refNative (Machine.init refState) movingOps = true ∧
      ∃ mk, Machine.run refNative (Machine.init refState) (movingOps.take 10) = some mk ∧
        ∀ h, mk.owners h ≤ 1 ∧ mk.world.frees h ≤ 1 ∧ mk.owners h + mk.world.frees h ≤ 1 :=
  ⟨by decide, single_ownership refNative refState movingOps (by decide) (by decide) 10⟩

end Claims

end etch
